import Mathlib

/-!
# Verification of `tap-amazon-associates` (streams.py / client.py / tap.py)

Shallow embedding of the core of the tap: the streaming decompression and
line-reassembly pipeline, the report row parser, the directory-listing
scraper, the incremental-sync coordinator and the retry configuration, all
transcribed from `tap_amazon_associates/streams.py`.

Conventions:
* raw bytes are modelled as `Nat` byte codes (`10` = LF, `13` = CR);
* decoded text is modelled as `List Char`;
* a Python generator is modelled as the list of its yields, and a Python
  exception as the `Except.error` case of an `Except` result.
-/

namespace TapAmazonAssociates

/-! ## Byte-level line splitting

`bytes.splitlines` as used by `iter_decompressed_lines` (streams.py:152).
For `bytes`, Python splits on `\n`, `\r` and on the two-byte sequence
`\r\n`, removing the terminators and producing no trailing empty element
for a trailing terminator. -/

/-- Python `bytes.splitlines` (terminators `\n` = 10, `\r` = 13, `\r\n`). -/
def splitlines : List Nat → List (List Nat)
  | [] => []
  | 10 :: rest => [] :: splitlines rest
  | 13 :: 10 :: rest => [] :: splitlines rest
  | 13 :: rest => [] :: splitlines rest
  | b :: rest =>
    match splitlines rest with
    | [] => [[b]]
    | l :: ls => (b :: l) :: ls

/-- `\n`-only splitting: `bytes.splitlines` restricted to carriage-return-free
input (proved equal to `splitlines` on such input in `splitlines_eq_splitNL`). -/
def splitNL : List Nat → List (List Nat)
  | [] => []
  | b :: rest =>
    if b = 10 then [] :: splitNL rest
    else
      match splitNL rest with
      | [] => [[b]]
      | l :: ls => (b :: l) :: ls

/-! ## The line reassembler

`ReportStream.iter_decompressed_lines` (streams.py:146-162):

```python
def iter_decompressed_lines(self, decompressed_stream):
    pending = None
    for c in decompressed_stream:
        if pending is not None:
            c = pending + c
        lines = c.splitlines()
        if lines and lines[-1] and c and lines[-1][-1] == c[-1]:
            pending = lines.pop()
        else:
            pending = None
        yield from lines
    if pending is not None:
        yield pending
```
-/

/-- One iteration of the `for c in decompressed_stream` loop: given the
current `pending` fragment and the incoming chunk, return the lines yielded
this round together with the new `pending` fragment. -/
def iterStep (pending : Option (List Nat)) (chunk : List Nat) :
    List (List Nat) × Option (List Nat) :=
  let c := match pending with
    | some p => p ++ chunk
    | none => chunk
  let lines := splitlines c
  if lines ≠ [] ∧ lines.getLastD [] ≠ [] ∧ c ≠ [] ∧
      (lines.getLastD []).getLast? = c.getLast? then
    (lines.dropLast, some (lines.getLastD []))
  else
    (lines, none)

/-- The loop of `iter_decompressed_lines` starting from a given `pending`
fragment; at stream end a remaining fragment is yielded as a final line. -/
def iterLinesFrom (pending : Option (List Nat)) : List (List Nat) → List (List Nat)
  | [] =>
    match pending with
    | some p => [p]
    | none => []
  | c :: rest =>
    let st := iterStep pending c
    st.1 ++ iterLinesFrom st.2 rest

/-- `ReportStream.iter_decompressed_lines` over a whole (finite) decompressed
chunk stream. -/
def iter_decompressed_lines (ds : List (List Nat)) : List (List Nat) :=
  iterLinesFrom none ds

/-- Modelled from the spec: `ReportStream.decompress_stream` (streams.py:138-144)
wraps the external `zlib` incremental inflater (`zlib.decompressobj(16 + MAX_WBITS)`),
which is not part of this repository.  Per spec §4.2 it feeds every compressed
chunk to the inflate state, yields the decompressed bytes immediately
available (possibly empty) for each, and yields one final flush chunk; over a
valid gzip stream the concatenation of all yielded chunks is the uncompressed
payload.  The chunk boundaries depend on the inflater's internal buffering and
on the input chunking, so the decompressor's possible outputs for a payload
are modelled as the partitions of the payload into (possibly empty) chunks. -/
def IsDecompressionOf (payload : List Nat) (ds : List (List Nat)) : Prop :=
  ds.flatten = payload

/-! ## The report row parser

`ReportStream.parse_response` (streams.py:224-233):

```python
def parse_response(self, response):
    for i, c in enumerate(
        self.iter_decompressed_lines(self.decompress_stream(response))
    ):
        if c:
            if i == 1:
                headers = c.decode().split("\t")
            elif i > 1:
                c_arr = c.decode().split("\t")
                yield {k: v.replace('""', "") for k, v in zip(headers, c_arr)}
```

Decoded lines are modelled as `List Char`; the input of the parser is the
line sequence produced by the decompress/reassemble pipeline (whose own
behaviour is the subject of the theorems about `iter_decompressed_lines`).
A record (Python dict built by the comprehension) is modelled as the
association list of its `(key, value)` pairs in insertion order. -/

/-- A parsed report row: keys paired with values, in insertion order. -/
abbrev Row := List (List Char × List Char)

/-- Python `str.split("\t")` (streams.py:230,232). -/
def splitTabAux : List Char → List Char → List (List Char)
  | [], acc => [acc.reverse]
  | ch :: rest, acc =>
    if ch = '\t' then acc.reverse :: splitTabAux rest []
    else splitTabAux rest (ch :: acc)

/-- Python `str.split("\t")`: split on every tab; `"".split("\t") == [""]`. -/
def splitTab (l : List Char) : List (List Char) := splitTabAux l []

/-- Python `v.replace('""', "")` (streams.py:233): remove every
(left-to-right, non-overlapping) occurrence of the two-character literal
`""` from the value. -/
def removeQQ : List Char → List Char
  | '"' :: '"' :: rest => removeQQ rest
  | ch :: rest => ch :: removeQQ rest
  | [] => []

/-- The dict comprehension of streams.py:233: zip the captured header names
with the tab-split positional values (stopping at the shorter list) and
normalize each value with `removeQQ`. -/
def zipRecord (hs vs : List (List Char)) : Row :=
  (hs.zip vs).map fun p => (p.1, removeQQ p.2)

/-- The enumerated loop of `ReportStream.parse_response` (streams.py:225-233),
carrying the (initially unbound) `headers` local as an `Option`.  Reading
`headers` while still unbound is Python's `UnboundLocalError`, modelled as
`Except.error ()`. -/
def report_parse_from (hdrs : Option (List (List Char))) (i : Nat) :
    List (List Char) → Except Unit (List Row)
  | [] => .ok []
  | c :: rest =>
    if c = [] then report_parse_from hdrs (i + 1) rest
    else if i = 1 then report_parse_from (some (splitTab c)) (i + 1) rest
    else if 1 < i then
      match hdrs with
      | none => .error ()
      | some hs =>
        match report_parse_from hdrs (i + 1) rest with
        | .error e => .error e
        | .ok rows => .ok (zipRecord hs (splitTab c) :: rows)
    else report_parse_from hdrs (i + 1) rest

/-- `ReportStream.parse_response` as a function of the decompressed line
sequence: the records yielded, or an error if the generator raises. -/
def report_parse_response (lines : List (List Char)) : Except Unit (List Row) :=
  report_parse_from none 0 lines

/-! ## Record post-processing

`ReportStream.format_key` (streams.py:235-237) and
`ReportStream.post_process` (streams.py:239-249). -/

/-- `ReportStream.format_key`: `key.replace(" ", "_").lower()`. -/
def format_key (k : List Char) : List Char :=
  (k.map fun ch => if ch = ' ' then '_' else ch).map Char.toLower

/-- The provenance context handed to a child `ReportStream` by
`ReportListStream.get_child_context` (streams.py:64-69). -/
structure ChildContext where
  filename : List Char
  last_modified : List Char
  report_type : List Char
deriving DecidableEq

/-- `ReportStream.post_process` (streams.py:239-249): the merged Python dict
`{**{format_key(k): v for k, v in row.items()}, **{provenance triple}}`,
modelled as the concatenation of the two association lists; a later binding
for a key overrides an earlier one (`dictGet`). -/
def report_post_process (row : Row) (ctx : ChildContext) : Row :=
  (row.map fun p => (format_key p.1, p.2)) ++
    [("filename".toList, ctx.filename),
     ("report_type".toList, ctx.report_type),
     ("last_modified".toList, ctx.last_modified)]

/-- Lookup in a `Row` with Python-dict override semantics: the last binding
of a key wins. -/
def dictGet (r : Row) (k : List Char) : Option (List Char) :=
  (r.reverse.find? fun p => p.1 = k).map (·.2)

/-! ## Report-type extraction

`ReportListStream.extract_report_type` (streams.py:46-62):

```python
def extract_report_type(self, filename) -> str:
    try:
        report_type = (
            re.match(r"\w+-\d{2}-(.+)-\d{8}\.tsv\.gz", filename)
            .group(1)
            .replace("-", " ")
            .title()
            .replace(" ", "")
        )
    except AttributeError:
        self.logger.error(...)
    if "uk-21" in filename and report_type in ["EarningsReport", "OrdersReport"]:
        report_type += "Subtags"
    return report_type
```

When the pattern does not match, `re.match` returns `None`, `.group(1)`
raises `AttributeError`, the handler only logs, and the local
`report_type` is left unbound; the subsequent read of `report_type`
(either in the `uk-21` test or at the `return`) raises
`UnboundLocalError`, modelled as `Except.error ()`. -/

/-- Python regex `\w` on the ASCII filenames at hand: letters, digits, `_`. -/
def isWordChar (ch : Char) : Bool := ch.isAlphanum || ch = '_'

/-- Whether `l` begins with `-` followed by eight digits followed by the
literal `.tsv.gz` — the `-\d{8}\.tsv\.gz` tail of the filename pattern
(`re.match` does not anchor the end, so anything may follow). -/
def tailOk : List Char → Bool
  | '-' :: rest =>
    (rest.take 8).length = 8 && (rest.take 8).all Char.isDigit &&
      ".tsv.gz".toList.isPrefixOf (rest.drop 8)
  | _ => false

/-- The greedy group `(.+)` of the pattern, backtracking from the right:
the longest non-empty prefix of `r` whose complement starts with the
`-\d{8}\.tsv\.gz` tail. -/
def reportKindSplit (r : List Char) : Option (List Char) :=
  (List.range r.length).reverse.findSome? fun j =>
    if tailOk (r.drop (j + 1)) then some (r.take (j + 1)) else none

/-- `re.match(r"\w+-\d{2}-(.+)-\d{8}\.tsv\.gz", filename)`, returning group 1.
`\w+` is greedy and `\w` never matches `-`, so the prefix is the maximal
word-character run, which must be non-empty and followed by `-\d\d-`. -/
def reportTypeMatch (filename : List Char) : Option (List Char) :=
  let w := filename.takeWhile isWordChar
  let rest := filename.drop w.length
  if w = [] then none
  else
    match rest with
    | '-' :: d1 :: d2 :: '-' :: r =>
      if d1.isDigit && d2.isDigit then reportKindSplit r else none
    | _ => none

/-- Python `sub in s` substring containment. -/
def containsSub (pat : List Char) : List Char → Bool
  | [] => pat.isEmpty
  | c :: rest => pat.isPrefixOf (c :: rest) || containsSub pat rest

/-- Python `str.title()`: uppercase every cased character that follows a
non-cased character, lowercase every other cased character. -/
def titleCase (prevCased : Bool) : List Char → List Char
  | [] => []
  | ch :: rest =>
    let cased := ch.isAlpha
    (if cased then (if prevCased then ch.toLower else ch.toUpper) else ch) ::
      titleCase cased rest

/-- `ReportListStream.extract_report_type` (streams.py:46-62). -/
def extract_report_type (filename : List Char) : Except Unit (List Char) :=
  match reportTypeMatch filename with
  | none => .error ()
  | some kind =>
    let rt := (titleCase false (kind.map fun ch => if ch = '-' then ' ' else ch)).filter
      (· ≠ ' ')
    let rt :=
      if containsSub "uk-21".toList filename &&
          (rt == "EarningsReport".toList || rt == "OrdersReport".toList) then
        rt ++ "Subtags".toList
      else rt
    .ok rt

/-! ## Timestamps

Python `datetime` values parsed and compared by `streams.py` are modelled
as naive year/month/day/hour/minute/second tuples; `datetime.strptime` and
`datetime.strftime` are external library code, so the two are modelled from
the spec's timestamp formats, restricted to the zero-padded canonical
renderings the tap produces. -/

/-- A naive Python `datetime` (no tzinfo). -/
structure PyDateTime where
  year : Nat
  month : Nat
  day : Nat
  hour : Nat
  minute : Nat
  second : Nat
deriving DecidableEq

/-- Python `datetime <` comparison: lexicographic on the six fields. -/
def dtLt (a b : PyDateTime) : Bool :=
  decide (a.year < b.year) ||
    (a.year == b.year && (decide (a.month < b.month) ||
      (a.month == b.month && (decide (a.day < b.day) ||
        (a.day == b.day && (decide (a.hour < b.hour) ||
          (a.hour == b.hour && (decide (a.minute < b.minute) ||
            (a.minute == b.minute && decide (a.second < b.second))))))))))

/-- Numeric value of a digit character. -/
def digitVal (ch : Char) : Nat := ch.toNat - 48

/-- Parse exactly two digits. -/
def parseD2 : List Char → Option (Nat × List Char)
  | a :: b :: rest =>
    if a.isDigit && b.isDigit then some (digitVal a * 10 + digitVal b, rest) else none
  | _ => none

/-- Parse exactly four digits. -/
def parseD4 : List Char → Option (Nat × List Char)
  | a :: b :: c :: d :: rest =>
    if a.isDigit && b.isDigit && c.isDigit && d.isDigit then
      some (((digitVal a * 10 + digitVal b) * 10 + digitVal c) * 10 + digitVal d, rest)
    else none
  | _ => none

/-- Expect one literal character. -/
def expectChar (ch : Char) : List Char → Option (List Char)
  | c :: rest => if c = ch then some rest else none
  | [] => none

/-- Modelled from the spec: the token set CPython's `strptime` accepts for
`%Z` in a UTC environment (`time.tzname` plus the built-ins); the whole
input must be consumed, so a trailing token such as `UTCUTC` does not match. -/
def parseZone : List Char → Option (List Char)
  | l =>
    if "UTC".toList.isPrefixOf l then some (l.drop 3)
    else if "GMT".toList.isPrefixOf l then some (l.drop 3)
    else none

/-- Field-range validation performed by `strptime`. -/
def fieldsOk (y mo d h mi s : Nat) : Bool :=
  1 ≤ mo && mo ≤ 12 && 1 ≤ d && d ≤ 31 && h ≤ 23 && mi ≤ 59 && s ≤ 61 && y ≤ 9999

/-- Modelled from the spec: `datetime.strptime(s, "%Y-%m-%d %H:%M:%S %Z")`
(format A of the watermark fallback, streams.py:77-80, and the format used
for `last_modified` at streams.py:86-88), restricted to zero-padded fields.
`%Z` is validated but discarded: the result carries no tzinfo. -/
def strptimeA (s : List Char) : Option PyDateTime := do
  let (y, s) ← parseD4 s
  let s ← expectChar '-' s
  let (mo, s) ← parseD2 s
  let s ← expectChar '-' s
  let (d, s) ← parseD2 s
  let s ← expectChar ' ' s
  let (h, s) ← parseD2 s
  let s ← expectChar ':' s
  let (mi, s) ← parseD2 s
  let s ← expectChar ':' s
  let (sec, s) ← parseD2 s
  let s ← expectChar ' ' s
  let s ← parseZone s
  if s = [] && fieldsOk y mo d h mi sec then
    some ⟨y, mo, d, h, mi, sec⟩
  else none

/-- Modelled from the spec: `datetime.strptime(s, "%Y-%m-%dT%H:%M:%SZ")`
(format B of the watermark fallback, streams.py:82-85). -/
def strptimeB (s : List Char) : Option PyDateTime := do
  let (y, s) ← parseD4 s
  let s ← expectChar '-' s
  let (mo, s) ← parseD2 s
  let s ← expectChar '-' s
  let (d, s) ← parseD2 s
  let s ← expectChar 'T' s
  let (h, s) ← parseD2 s
  let s ← expectChar ':' s
  let (mi, s) ← parseD2 s
  let s ← expectChar ':' s
  let (sec, s) ← parseD2 s
  let s ← expectChar 'Z' s
  if s = [] && fieldsOk y mo d h mi sec then
    some ⟨y, mo, d, h, mi, sec⟩
  else none

/-- The English weekday abbreviations accepted by `%a`. -/
def weekdayAbbrevs : List (List Char) :=
  ["Mon", "Tue", "Wed", "Thu", "Fri", "Sat", "Sun"].map String.toList

/-- The English month abbreviations accepted by `%b`, in month order. -/
def monthAbbrevs : List (List Char) :=
  ["Jan", "Feb", "Mar", "Apr", "May", "Jun",
   "Jul", "Aug", "Sep", "Oct", "Nov", "Dec"].map String.toList

/-- Parse a `%b` month abbreviation to its month number. -/
def parseMonth (s : List Char) : Option (Nat × List Char) :=
  match monthAbbrevs.findIdx? fun m => m.isPrefixOf s with
  | some idx => some (idx + 1, s.drop 3)
  | none => none

/-- Modelled from the spec:
`datetime.strptime(s, "%a %b %d %H:%M:%S %Z %Y")` (streams.py:107), the
locale-formatted listing timestamp, restricted to the abbreviated English
names.  The weekday is validated and discarded. -/
def strptimeListing (s : List Char) : Option PyDateTime := do
  let s ←
    match weekdayAbbrevs.findIdx? fun w => w.isPrefixOf s with
    | some _ => some (s.drop 3)
    | none => none
  let s ← expectChar ' ' s
  let (mo, s) ← parseMonth s
  let s ← expectChar ' ' s
  let (d, s) ← parseD2 s
  let s ← expectChar ' ' s
  let (h, s) ← parseD2 s
  let s ← expectChar ':' s
  let (mi, s) ← parseD2 s
  let s ← expectChar ':' s
  let (sec, s) ← parseD2 s
  let s ← expectChar ' ' s
  let s ← parseZone s
  let s ← expectChar ' ' s
  let (y, s) ← parseD4 s
  if s = [] && fieldsOk y mo d h mi sec then
    some ⟨y, mo, d, h, mi, sec⟩
  else none

/-- Zero-padded two-digit rendering. -/
def pad2 (n : Nat) : List Char := [Char.ofNat (48 + n / 10 % 10), Char.ofNat (48 + n % 10)]

/-- Zero-padded four-digit rendering. -/
def pad4 (n : Nat) : List Char :=
  [Char.ofNat (48 + n / 1000 % 10), Char.ofNat (48 + n / 100 % 10),
   Char.ofNat (48 + n / 10 % 10), Char.ofNat (48 + n % 10)]

/-- Modelled from the spec: `dt.strftime("%Y-%m-%d %H:%M:%S %Z")`
(streams.py:107-109).  The datetime here is the naive result of
`strptime` — CPython's `strptime` does not attach tzinfo for a `%Z`
field — and `strftime("%Z")` on a naive datetime renders the *empty*
string, so the rendering ends with the format's literal space and no
timezone name. -/
def strftimeNorm (t : PyDateTime) : List Char :=
  pad4 t.year ++ '-' :: (pad2 t.month ++ '-' :: (pad2 t.day ++ ' ' ::
    (pad2 t.hour ++ ':' :: (pad2 t.minute ++ ':' :: (pad2 t.second ++ [' '])))))

/-! ## The directory-listing scraper

`ReportListStream.parse_response` (streams.py:96-118):

```python
def parse_response(self, response):
    page_content = response.text
    match_list = re.findall(
        r"<TR><TD>(.*?)</TD><TD>(.*?)</TD>.*?<a href=(.*?)>",
        page_content,
        re.DOTALL,
    )
    file_list = []
    for row in match_list:
        if "tsv" in row[0] and "bounty" not in row[0]:
            new_time = (
                datetime.strptime(row[1], "%a %b %d %H:%M:%S %Z %Y").strftime(
                    "%Y-%m-%d %H:%M:%S %Z"
                )
                + "UTC"
            )
            new_row = {
                "filename": row[0],
                "last_modified": new_time,
                "download": row[2][1:-1],
            }
            file_list.append(new_row)
    yield from file_list
```
-/

/-- Split a string at the first occurrence of a literal pattern: the text
before the pattern and the text after it. -/
def splitAtSub (pat : List Char) : List Char → Option (List Char × List Char)
  | [] => if pat = [] then some ([], []) else none
  | c :: rest =>
    if pat.isPrefixOf (c :: rest) then some ([], (c :: rest).drop pat.length)
    else
      match splitAtSub pat rest with
      | some (b, a) => some (c :: b, a)
      | none => none

/-- Leftmost match of
`<TR><TD>(.*?)</TD><TD>(.*?)</TD>.*?<a href=(.*?)>` under `re.DOTALL`:
the three non-greedy groups capture up to the first occurrence of the
literal that follows each of them, and the remainder of the page after
the match is returned for the `findall` scan to continue from. -/
def matchRowFrom (s : List Char) :
    Option ((List Char × List Char × List Char) × List Char) := do
  let (_, r1) ← splitAtSub "<TR><TD>".toList s
  let (g1, r2) ← splitAtSub "</TD><TD>".toList r1
  let (g2, r3) ← splitAtSub "</TD>".toList r2
  let (_, r4) ← splitAtSub "<a href=".toList r3
  let (g3, r5) ← splitAtSub ">".toList r4
  some ((g1, g2, g3), r5)

/-- `re.findall` of the row pattern: repeat `matchRowFrom` on the remainder
until no further match.  Every match consumes at least the literal parts of
the pattern, so `s.length` rounds of fuel suffice. -/
def findRowsAux : Nat → List Char → List (List Char × List Char × List Char)
  | 0, _ => []
  | fuel + 1, s =>
    match matchRowFrom s with
    | none => []
    | some (g, r) => g :: findRowsAux fuel r

/-- All row matches of the listing page. -/
def findReportRows (s : List Char) : List (List Char × List Char × List Char) :=
  findRowsAux s.length s

/-- A row yielded by `ReportListStream.parse_response` (before
`post_process` adds the report type). -/
structure ListedFile where
  filename : List Char
  last_modified : List Char
  download : List Char
deriving DecidableEq

/-- The filter-and-normalize loop of `ReportListStream.parse_response`
(streams.py:104-117).  An unparseable listing timestamp raises
`ValueError` from `strptime`, modelled as `Except.error ()`. -/
def listRowsToFiles : List (List Char × List Char × List Char) →
    Except Unit (List ListedFile)
  | [] => .ok []
  | (f, tm, href) :: rest =>
    if containsSub "tsv".toList f && !containsSub "bounty".toList f then
      match strptimeListing tm with
      | none => .error ()
      | some dt =>
        match listRowsToFiles rest with
        | .error e => .error e
        | .ok files =>
          .ok ({ filename := f,
                 last_modified := strftimeNorm dt ++ "UTC".toList,
                 download := (href.drop 1).dropLast } :: files)
    else listRowsToFiles rest

/-- `ReportListStream.parse_response` over the listing page text. -/
def list_parse_response (page : List Char) : Except Unit (List ListedFile) :=
  listRowsToFiles (findReportRows page)

/-- A fully post-processed listing record. -/
structure FileDescriptor where
  filename : List Char
  last_modified : List Char
  download : List Char
  report_type : List Char
deriving DecidableEq

/-- `ReportListStream.post_process` (streams.py:120-124): attach the
extracted report type; an extraction failure propagates
(`extract_report_type` raises). -/
def list_post_process (r : ListedFile) : Except Unit FileDescriptor :=
  match extract_report_type r.filename with
  | .error e => .error e
  | .ok rt => .ok ⟨r.filename, r.last_modified, r.download, rt⟩

/-! ## The incremental sync coordinator

`ReportListStream._sync_children` (streams.py:71-94):

```python
def _sync_children(self, child_context):
    for child_stream in self.child_streams:
        if child_stream.selected or child_stream.has_selected_descendents:
            current_max_update_date = None
            if self.stream_state.get("starting_replication_value"):
                try:
                    current_max_update_date = datetime.strptime(
                        self.stream_state.get("starting_replication_value"),
                        "%Y-%m-%d %H:%M:%S %Z",
                    )
                except ValueError:
                    current_max_update_date = datetime.strptime(
                        self.stream_state.get("starting_replication_value"),
                        "%Y-%m-%dT%H:%M:%SZ",
                    )
            last_modified_datetime = datetime.strptime(
                child_context["last_modified"], "%Y-%m-%d %H:%M:%S %Z"
            )
            if (
                child_stream.name == child_context["report_type"]
                and current_max_update_date
                and last_modified_datetime > current_max_update_date
            ):
                child_stream.sync(context=child_context)
```
-/

/-- A registered child report consumer: its declared `name` and whether it
is selected (directly or through a selected descendant). -/
structure ChildStream where
  name : List Char
  selected : Bool
deriving DecidableEq

/-- The watermark read (streams.py:74-85): `None` when no (truthy)
`starting_replication_value` is persisted, the parsed timestamp via the
format-A-then-format-B fallback otherwise; a failure of both formats is a
`ValueError`, modelled as `Except.error ()`.  A parsed Python `datetime`
is always truthy, so `current_max_update_date` is truthy exactly when the
watermark string existed and parsed. -/
def watermark_value (srv : Option (List Char)) : Except Unit (Option PyDateTime) :=
  match srv with
  | none => .ok none
  | some w =>
    if w = [] then .ok none
    else
      match strptimeA w with
      | some t => .ok (some t)
      | none =>
        match strptimeB w with
        | some t => .ok (some t)
        | none => .error ()

/-- `ReportListStream._sync_children`: the names of the children whose
`sync` is invoked, in order, together with an error flag set when a
`strptime` call raises (aborting the loop at that child).  `srv` is the
persisted `starting_replication_value`. -/
def sync_children (srv : Option (List Char)) (ctx : ChildContext) :
    List ChildStream → List (List Char) × Bool
  | [] => ([], false)
  | ch :: rest =>
    if ch.selected then
      match watermark_value srv with
      | .error _ => ([], true)
      | .ok wm =>
        match strptimeA ctx.last_modified with
        | none => ([], true)
        | some lm =>
          let tail := sync_children srv ctx rest
          if ch.name == ctx.report_type &&
              (match wm with
               | some t => dtLt t lm
               | none => false) then
            (ch.name :: tail.1, tail.2)
          else tail
    else sync_children srv ctx rest

/-! ## The retry configuration

`ReportStream.backoff_wait_generator`, `backoff_max_tries`,
`request_decorator` and `request_records` (streams.py:164-222).  The
`backoff.on_exception` combinator is external library code, so it is
modelled from the spec's retry policy; the constants and the retriable
exception classes are taken from the source. -/

/-- The outcome of one fetch attempt: a response value, an error of one of
the three retriable classes (`RetriableAPIError`,
`requests.exceptions.ReadTimeout`, `requests.exceptions.ConnectionError`,
streams.py:187-191), or any other, non-retried, exception. -/
inductive FetchOutcome where
  | ok (v : Nat)
  | retriable (e : Nat)
  | fatal (e : Nat)
deriving DecidableEq

/-- A completed fetch: the final outcome, the number of attempts made, and
the list of waiting intervals observed between attempts. -/
structure RetryTrace where
  result : FetchOutcome
  attempts : Nat
  waits : List Nat
deriving DecidableEq

/-- `ReportStream.backoff_wait_generator` (streams.py:164-165):
`backoff.constant(interval=3)`. -/
def backoff_wait_interval : Nat := 3

/-- `ReportStream.backoff_max_tries` (streams.py:167-168). -/
def backoff_max_tries : Nat := 8

/-- Modelled from the spec: the `backoff.on_exception` combinator applied
by `ReportStream.request_decorator` (streams.py:170-195), external library
code — attempt `f k`; a retriable error with more tries remaining waits
one interval and retries, a retriable error on the last allowed try
propagates as the final (fatal) outcome, anything else returns at once. -/
def runRetry (f : Nat → FetchOutcome) (interval : Nat) : Nat → Nat → RetryTrace
  | k, r =>
    match f k with
    | .retriable e =>
      if r ≤ 1 then ⟨.retriable e, 1, []⟩
      else
        let t := runRetry f interval (k + 1) (r - 1)
        ⟨t.result, t.attempts + 1, interval :: t.waits⟩
    | out => ⟨out, 1, []⟩
  termination_by _ r => r
  decreasing_by omega

/-- A fetch wrapped by `request_decorator` with the stream's configured
wait generator and try cap. -/
def request_with_backoff (f : Nat → FetchOutcome) : RetryTrace :=
  runRetry f backoff_wait_interval 0 backoff_max_tries

/-- `ReportStream.request_records` (streams.py:197-222): the report-file
fetch as the code performs it — a single direct `requests.get` call, not
wrapped in `request_decorator`, so exactly one attempt is made and any
error propagates immediately with no wait. -/
def request_records_fetch (f : Nat → FetchOutcome) : RetryTrace :=
  ⟨f 0, 1, []⟩

/-- The Scenario A listing page row from the spec's testable properties. -/
def scenarioA_html : List Char :=
  ("<TR><TD>foo-20-earnings-report-20230101.tsv.gz</TD><TD>" ++
    "Mon Jan 02 03:04:05 UTC 2023</TD>...<a href=/x.gz>").toList

/-! ## Helper lemmas: line splitting -/

theorem splitNL_cons_lf (rest : List Nat) : splitNL (10 :: rest) = [] :: splitNL rest := by
  simp [splitNL]

theorem splitNL_cons (b : Nat) (rest : List Nat) (hb : b ≠ 10) :
    splitNL (b :: rest) =
      match splitNL rest with
      | [] => [[b]]
      | l :: ls => (b :: l) :: ls := by
  rw [splitNL]
  simp [hb]

theorem splitlines_cons_lf (rest : List Nat) :
    splitlines (10 :: rest) = [] :: splitlines rest := rfl

theorem splitlines_cons (b : Nat) (rest : List Nat) (hb : b ≠ 10) (hb13 : b ≠ 13) :
    splitlines (b :: rest) =
      match splitlines rest with
      | [] => [[b]]
      | l :: ls => (b :: l) :: ls := by
  rw [splitlines.eq_def]
  split <;> simp_all

/-- On carriage-return-free input, `bytes.splitlines` splits on `\n` alone. -/
theorem splitlines_eq_splitNL : ∀ (l : List Nat), 13 ∉ l → splitlines l = splitNL l
  | [], _ => rfl
  | b :: rest, h => by
    have h13 : b ≠ 13 := by rintro rfl; exact h (List.mem_cons_self _ _)
    have hrest : 13 ∉ rest := fun hr => h (List.mem_cons_of_mem _ hr)
    by_cases hb : b = 10
    · subst hb
      rw [splitlines_cons_lf, splitNL_cons_lf, splitlines_eq_splitNL rest hrest]
    · rw [splitlines_cons b rest hb h13, splitNL_cons b rest hb,
        splitlines_eq_splitNL rest hrest]

theorem splitNL_ne_nil : ∀ {l : List Nat}, l ≠ [] → splitNL l ≠ []
  | [], h => absurd rfl h
  | b :: rest, _ => by
    by_cases hb : b = 10
    · subst hb; rw [splitNL_cons_lf]; simp
    · rw [splitNL_cons b rest hb]
      cases splitNL rest <;> simp

/-- No element of `splitNL l` contains the newline byte. -/
theorem not_lf_mem_splitNL : ∀ {l x : List Nat}, x ∈ splitNL l → 10 ∉ x
  | [], x, hx => by simp [splitNL] at hx
  | b :: rest, x, hx => by
    by_cases hb : b = 10
    · subst hb
      rw [splitNL_cons_lf] at hx
      rcases List.mem_cons.mp hx with rfl | hx
      · simp
      · exact not_lf_mem_splitNL hx
    · rw [splitNL_cons b rest hb] at hx
      revert hx
      cases hr : splitNL rest with
      | nil =>
        intro hx
        rcases List.mem_cons.mp hx with rfl | hx
        · intro hmem
          simp at hmem
          exact hb hmem.symm
        · simp at hx
      | cons l ls =>
        intro hx
        rcases List.mem_cons.mp hx with rfl | hx
        · intro hmem
          rcases List.mem_cons.mp hmem with h10 | h10
          · exact hb h10.symm
          · exact not_lf_mem_splitNL (hr ▸ List.mem_cons_self l ls) h10
        · exact not_lf_mem_splitNL (hr ▸ List.mem_cons_of_mem l hx)

/-- A non-empty newline-free byte string is a single line. -/
theorem splitNL_no_lf : ∀ {l : List Nat}, l ≠ [] → 10 ∉ l → splitNL l = [l]
  | [], h, _ => absurd rfl h
  | b :: rest, _, h10 => by
    have hb : b ≠ 10 := by rintro rfl; exact h10 (List.mem_cons_self _ _)
    have hrest : 10 ∉ rest := fun hr => h10 (List.mem_cons_of_mem _ hr)
    rw [splitNL_cons b rest hb]
    cases hr : rest with
    | nil => simp [splitNL]
    | cons c rest2 =>
      rw [← hr, splitNL_no_lf (hr ▸ List.cons_ne_nil c rest2) hrest]

/-- Splitting distributes over a newline: everything before the last `\n`
(inclusive) contributes its lines unchanged. -/
theorem splitNL_append_lf : ∀ (a w : List Nat),
    splitNL (a ++ 10 :: w) = splitNL (a ++ [10]) ++ splitNL w
  | [], w => by simp [splitNL_cons_lf, splitNL]
  | b :: a', w => by
    by_cases hb : b = 10
    · subst hb
      rw [List.cons_append, splitNL_cons_lf, List.cons_append, splitNL_cons_lf,
        splitNL_append_lf a' w]
      rfl
    · rw [List.cons_append, splitNL_cons b _ hb, List.cons_append, splitNL_cons b _ hb,
        splitNL_append_lf a' w]
      have hne : splitNL (a' ++ [10]) ≠ [] := splitNL_ne_nil (by simp)
      cases hsp : splitNL (a' ++ [10]) with
      | nil => exact absurd hsp hne
      | cons l ls => simp

/-- Decompose a list around its last newline byte. -/
theorem exists_last_lf : ∀ {l : List Nat}, 10 ∈ l → ∃ a t, l = a ++ 10 :: t ∧ 10 ∉ t
  | b :: rest, h => by
    by_cases h10 : 10 ∈ rest
    · obtain ⟨a, t, hat, hnt⟩ := exists_last_lf h10
      exact ⟨b :: a, t, by rw [hat]; rfl, hnt⟩
    · have hb : b = 10 := by
        rcases List.mem_cons.mp h with h | h
        · exact h.symm
        · exact absurd h h10
      exact ⟨[], rest, by rw [hb]; rfl, h10⟩

/-! ## Helper lemmas: the reassembler loop -/

theorem iterStep_eq (pending : Option (List Nat)) (chunk : List Nat) :
    iterStep pending chunk =
      if splitlines (pending.getD [] ++ chunk) ≠ [] ∧
          (splitlines (pending.getD [] ++ chunk)).getLastD [] ≠ [] ∧
          pending.getD [] ++ chunk ≠ [] ∧
          ((splitlines (pending.getD [] ++ chunk)).getLastD []).getLast? =
            (pending.getD [] ++ chunk).getLast? then
        ((splitlines (pending.getD [] ++ chunk)).dropLast,
          some ((splitlines (pending.getD [] ++ chunk)).getLastD []))
      else (splitlines (pending.getD [] ++ chunk), none) := by
  cases pending <;> rfl

/-- The fragment invariant: a pending fragment is non-empty and contains
neither newline nor carriage return. -/
def FragInv (pending : Option (List Nat)) : Prop :=
  ∀ p, pending = some p → p ≠ [] ∧ 10 ∉ p ∧ 13 ∉ p

theorem fragInv_some {q : List Nat} (h : q ≠ [] ∧ 10 ∉ q ∧ 13 ∉ q) :
    FragInv (some q) := by
  intro p hp'
  cases hp'
  exact h

/-- One loop round of `iter_decompressed_lines` on carriage-return-free
data: the lines yielded this round, followed by the lines of the new
pending fragment glued to any continuation `s`, are exactly the lines of
the pending-prepended chunk glued to `s`; and the fragment invariant is
preserved. -/
theorem iterStep_spec (pending : Option (List Nat)) (chunk s : List Nat)
    (hp : FragInv pending) (hc : 13 ∉ chunk) :
    (iterStep pending chunk).1 ++
        splitNL (((iterStep pending chunk).2).getD [] ++ s) =
      splitNL ((pending.getD [] ++ chunk) ++ s) ∧
    FragInv (iterStep pending chunk).2 := by
  rw [iterStep_eq]
  set cc := pending.getD [] ++ chunk with hcc_def
  have hcc13 : 13 ∉ cc := by
    intro h
    rcases List.mem_append.mp h with h | h
    · cases pending with
      | none => simp at h
      | some p => exact (hp p rfl).2.2 h
    · exact hc h
  have hsl : splitlines cc = splitNL cc := splitlines_eq_splitNL cc hcc13
  by_cases hccnil : cc = []
  · rw [hccnil]
    have : splitlines ([] : List Nat) = [] := rfl
    rw [if_neg (by simp [this])]
    refine ⟨by simp [splitlines], ?_⟩
    intro p hp'
    simp at hp'
  by_cases h10cc : 10 ∈ cc
  · obtain ⟨a, t, hat, hnt⟩ := exists_last_lf h10cc
    by_cases ht : t = []
    · -- the combined buffer ends exactly on the newline: no new fragment
      subst ht
      have hcc_eq : cc = a ++ [10] := hat
      have hlast10 : cc.getLast? = some 10 := by rw [hcc_eq]; exact List.getLast?_concat a
      have hcond : ¬(splitlines cc ≠ [] ∧ (splitlines cc).getLastD [] ≠ [] ∧ cc ≠ [] ∧
          ((splitlines cc).getLastD []).getLast? = cc.getLast?) := by
        rintro ⟨h1, h2, _, h4⟩
        have hmem : (splitlines cc).getLastD [] ∈ splitlines cc := by
          rw [List.getLastD_eq_getLast?, List.getLast?_eq_getLast _ h1]
          exact List.getLast_mem h1
        have hno10 : 10 ∉ (splitlines cc).getLastD [] :=
          not_lf_mem_splitNL (l := cc) (by rw [← hsl]; exact hmem)
        rw [hlast10] at h4
        exact hno10 (List.mem_of_mem_getLast? h4)
      rw [if_neg hcond]
      refine ⟨?_, fun p hp' => by simp at hp'⟩
      have hccs : cc ++ s = a ++ 10 :: s := by rw [hcc_eq]; simp
      rw [hccs, splitNL_append_lf a s, hsl, hcc_eq]
      simp
    · -- a non-empty trailing fragment after the last newline is withheld
      have h13t : 13 ∉ t := by
        intro h
        exact hcc13 (hat ▸ List.mem_append.mpr (Or.inr (List.mem_cons_of_mem _ h)))
      have hsplit_cc : splitNL cc = splitNL (a ++ [10]) ++ [t] := by
        rw [hat, splitNL_append_lf a t, splitNL_no_lf ht hnt]
      have hlastD : (splitlines cc).getLastD [] = t := by
        rw [hsl, hsplit_cc]; exact List.getLastD_concat _ _ _
      obtain ⟨t', x, htx⟩ : ∃ t' x, t = t' ++ [x] :=
        ⟨t.dropLast, t.getLast ht, (List.dropLast_append_getLast ht).symm⟩
      have hlcc : cc.getLast? = some x := by
        have : cc = (a ++ 10 :: t') ++ [x] := by rw [hat, htx]; simp
        rw [this]; exact List.getLast?_concat _
      have hlt : t.getLast? = some x := by rw [htx]; exact List.getLast?_concat _
      have hcond : splitlines cc ≠ [] ∧ (splitlines cc).getLastD [] ≠ [] ∧ cc ≠ [] ∧
          ((splitlines cc).getLastD []).getLast? = cc.getLast? := by
        refine ⟨?_, ?_, hccnil, ?_⟩
        · rw [hsl, hsplit_cc]; simp
        · rw [hlastD]; exact ht
        · rw [hlastD, hlt, hlcc]
      rw [if_pos hcond]
      constructor
      · have hdrop : (splitlines cc).dropLast = splitNL (a ++ [10]) := by
          rw [hsl, hsplit_cc]; exact List.dropLast_concat
        have hccs : cc ++ s = a ++ 10 :: (t ++ s) := by rw [hat]; simp
        rw [hdrop, hlastD, hccs, splitNL_append_lf a (t ++ s)]
        simp
      · show FragInv (some ((splitlines cc).getLastD []))
        rw [hlastD]
        exact fragInv_some ⟨ht, hnt, h13t⟩
  · -- no newline in the combined buffer: the whole buffer is withheld
    have hsl1 : splitlines cc = [cc] := by rw [hsl, splitNL_no_lf hccnil h10cc]
    have hcond : splitlines cc ≠ [] ∧ (splitlines cc).getLastD [] ≠ [] ∧ cc ≠ [] ∧
        ((splitlines cc).getLastD []).getLast? = cc.getLast? := by
      rw [hsl1]
      exact ⟨by simp, by simpa using hccnil, hccnil, by simp⟩
    rw [if_pos hcond]
    refine ⟨?_, ?_⟩
    · rw [hsl1]; simp
    · show FragInv (some ((splitlines cc).getLastD []))
      rw [hsl1]
      exact fragInv_some ⟨hccnil, h10cc, hcc13⟩

/-- The whole reassembler loop on carriage-return-free chunks yields the
newline-split lines of the pending fragment glued to the concatenation of
the chunks. -/
theorem iterLinesFrom_splitNL : ∀ (ds : List (List Nat)) (pending : Option (List Nat)),
    FragInv pending → (∀ c ∈ ds, 13 ∉ c) →
    iterLinesFrom pending ds = splitNL (pending.getD [] ++ ds.flatten)
  | [], pending, hp, _ => by
    cases pending with
    | none => simp [iterLinesFrom, splitNL]
    | some p =>
      obtain ⟨hne, h10, _⟩ := hp p rfl
      simp only [iterLinesFrom, List.flatten_nil, List.append_nil, Option.getD_some]
      rw [splitNL_no_lf hne h10]
  | c :: rest, pending, hp, hds => by
    have hc : 13 ∉ c := hds c (List.mem_cons_self _ _)
    have hrest : ∀ d ∈ rest, 13 ∉ d := fun d hd => hds d (List.mem_cons_of_mem _ hd)
    obtain ⟨hstep, hinv⟩ := iterStep_spec pending c rest.flatten hp hc
    show (iterStep pending c).1 ++ iterLinesFrom (iterStep pending c).2 rest = _
    rw [iterLinesFrom_splitNL rest (iterStep pending c).2 hinv hrest, hstep]
    simp [List.append_assoc]

theorem splitlines_ne_nil {l : List Nat} (h : l ≠ []) : splitlines l ≠ [] := by
  rw [splitlines.eq_def]
  split
  · simp_all
  · simp
  · simp
  · simp
  · split <;> simp

/-! ## Claim C1 -/

/-- C1 (counterexample): the claim asserts that the reassembled line
sequence is identical for every chunking of the same payload.  It fails
when a `\r\n` terminator is split across chunk boundaries: for the payload
`"a\r\nb"` the whole-payload chunking yields the lines `["a", "b"]` while
the 1-byte chunking yields `["a", "", "b"]` — a spurious empty line, so
the outputs are not identical and one of them is not the payload's line
sequence. -/
theorem C1_crlf_counterexample :
    IsDecompressionOf [97, 13, 10, 98] [[97, 13, 10, 98]] ∧
    IsDecompressionOf [97, 13, 10, 98] [[97], [13], [10], [98]] ∧
    iter_decompressed_lines [[97, 13, 10, 98]] = [[97], [98]] ∧
    iter_decompressed_lines [[97], [13], [10], [98]] = [[97], [], [98]] ∧
    iter_decompressed_lines [[97], [13], [10], [98]] ≠
      iter_decompressed_lines [[97, 13, 10, 98]] := by
  refine ⟨rfl, rfl, ?_, ?_, ?_⟩ <;> decide

/-- C1 (amended): for every payload that contains no carriage-return byte
(so its line boundaries are solely `\n`), the composition of the streaming
decompressor and the line reassembler yields exactly `splitlines payload`
— the lines of the uncompressed payload, none lost or duplicated — and
the resulting line sequence is identical for every partition of the
payload into (possibly empty) chunks. -/
theorem C1_reassembles_lines (P : List Nat) (hP : 13 ∉ P)
    (ds₁ ds₂ : List (List Nat))
    (h₁ : IsDecompressionOf P ds₁) (h₂ : IsDecompressionOf P ds₂) :
    iter_decompressed_lines ds₁ = splitlines P ∧
    iter_decompressed_lines ds₁ = iter_decompressed_lines ds₂ := by
  have key : ∀ ds : List (List Nat), IsDecompressionOf P ds →
      iter_decompressed_lines ds = splitNL P := by
    intro ds hds
    have hds' : ds.flatten = P := hds
    have hfree : ∀ c ∈ ds, 13 ∉ c := by
      intro c hc hmem
      exact hP (hds' ▸ List.mem_flatten.mpr ⟨c, hc, hmem⟩)
    rw [iter_decompressed_lines,
      iterLinesFrom_splitNL ds none (fun p hp => by cases hp) hfree]
    simp only [Option.getD_none, List.nil_append]
    rw [hds']
  rw [key ds₁ h₁, key ds₂ h₂, splitlines_eq_splitNL P hP]
  exact ⟨rfl, rfl⟩

/-- C1 witness: a newline-free-of-CR payload split two ways. -/
theorem C1_reassembles_lines_witness :
    iter_decompressed_lines [[97], [10, 98]] = splitlines [97, 10, 98] ∧
    iter_decompressed_lines [[97], [10, 98]] =
      iter_decompressed_lines [[97, 10, 98]] :=
  C1_reassembles_lines [97, 10, 98] (by decide) [[97], [10, 98]] [[97, 10, 98]]
    rfl rfl

/-! ## Claim C2 -/

/-- C2 (counterexample): the claim's tie-break rule tests the *incoming
chunk*; the code tests the pending-prepended buffer `c = pending + chunk`.
They disagree when the incoming chunk is empty while a pending fragment
exists: feeding chunk `"ab"` leaves `"ab"` pending, and on a following
*empty* chunk the claim requires all split elements (`["ab"]`) to be
emitted immediately with no pending fragment, but the code emits nothing
and keeps `"ab"` pending. -/
theorem C2_empty_chunk_counterexample :
    iterStep none [97, 98] = ([], some [97, 98]) ∧
    iterStep (some [97, 98]) [] = ([], some [97, 98]) ∧
    iterStep (some [97, 98]) [] ≠ ([[97, 98]], none) := by
  refine ⟨?_, ?_, ?_⟩ <;> decide

/-- C2 (amended): with "the chunk" read as the pending-prepended buffer
`c = pending + chunk`, the round behaves exactly as claimed: the last
split element is withheld as the new pending fragment exactly when `c` is
non-empty, the last split element is non-empty, and the last split
element's final byte equals `c`'s final byte; otherwise all split elements
are emitted immediately and there is no pending fragment; and at stream
end a remaining pending fragment is emitted as one final line. -/
theorem C2_step_characterization (pending : Option (List Nat)) (chunk : List Nat) :
    ((pending.getD [] ++ chunk ≠ [] ∧
        (splitlines (pending.getD [] ++ chunk)).getLastD [] ≠ [] ∧
        ((splitlines (pending.getD [] ++ chunk)).getLastD []).getLast? =
          (pending.getD [] ++ chunk).getLast? →
      iterStep pending chunk =
        ((splitlines (pending.getD [] ++ chunk)).dropLast,
          some ((splitlines (pending.getD [] ++ chunk)).getLastD []))) ∧
      (¬(pending.getD [] ++ chunk ≠ [] ∧
          (splitlines (pending.getD [] ++ chunk)).getLastD [] ≠ [] ∧
          ((splitlines (pending.getD [] ++ chunk)).getLastD []).getLast? =
            (pending.getD [] ++ chunk).getLast?) →
        iterStep pending chunk = (splitlines (pending.getD [] ++ chunk), none))) ∧
    iterLinesFrom pending [] =
      (match pending with
       | some p => [p]
       | none => []) := by
  refine ⟨⟨?_, ?_⟩, ?_⟩
  · rintro ⟨h1, h2, h3⟩
    rw [iterStep_eq, if_pos ⟨splitlines_ne_nil h1, h2, h1, h3⟩]
  · intro hn
    rw [iterStep_eq, if_neg]
    rintro ⟨_, h2, h3, h4⟩
    exact hn ⟨h3, h2, h4⟩
  · cases pending <;> rfl

/-- C2 witness: a chunk ending mid-line withholds the trailing fragment,
and a fragment pending at stream end is emitted as a final line. -/
theorem C2_step_characterization_witness :
    iterStep none [10, 97] = ([[]], some [97]) ∧
    iterLinesFrom (some [97]) [] = [[97]] :=
  ⟨(C2_step_characterization none [10, 97]).1.1 (by decide),
   (C2_step_characterization (some [97]) []).2⟩

/-! ## Claim C3 -/

/-- C3: a decompressed stream of exactly 2 non-empty lines yields zero
data records; one of exactly 3 non-empty lines yields exactly 1 data
record, with line index 0 discarded as the title line, line index 1
captured as the tab-split header, and the line at index 2 converted to a
record by zipping the header with its tab-split values. -/
theorem C3_boundary_line_counts (t h d : List Char)
    (ht : t ≠ []) (hh : h ≠ []) (hd : d ≠ []) :
    report_parse_response [t, h] = .ok [] ∧
    report_parse_response [t, h, d] =
      .ok [zipRecord (splitTab h) (splitTab d)] := by
  constructor
  · simp [report_parse_response, report_parse_from, ht, hh]
  · simp [report_parse_response, report_parse_from, ht, hh, hd]

/-- C3 witness: a concrete 2-line and 3-line stream. -/
theorem C3_boundary_line_counts_witness :
    report_parse_response ["Report Title".toList, "h1\th2".toList] = .ok [] ∧
    report_parse_response ["Report Title".toList, "h1\th2".toList, "v1\tv2".toList] =
      .ok [zipRecord (splitTab "h1\th2".toList) (splitTab "v1\tv2".toList)] :=
  C3_boundary_line_counts _ _ _ (by decide) (by decide) (by decide)

/-! ## Claim C8 -/

theorem removeQQ_cons_ne (ch : Char) (rest : List Char) (h : ch ≠ '"') :
    removeQQ (ch :: rest) = ch :: removeQQ rest := by
  rw [removeQQ.eq_def]
  split <;> simp_all

theorem removeQQ_strip (a b : List Char) (ha : '"' ∉ a) :
    removeQQ (a ++ '"' :: '"' :: b) = a ++ removeQQ b := by
  induction a with
  | nil => rfl
  | cons ch a' ih =>
    have hch : ch ≠ '"' := by rintro rfl; exact ha (List.mem_cons_self _ _)
    have ha' : '"' ∉ a' := fun hmem => ha (List.mem_cons_of_mem _ hmem)
    rw [List.cons_append, removeQQ_cons_ne ch _ hch, ih ha', List.cons_append]

/-- C8: each data line's record zips the captured header names with the
tab-split positional values, the pairing stopping at the shorter of the
two sequences — its length is the minimum of the two field counts, and
misaligned columns never produce an error — and every value has each
occurrence of the two-character literal `""` removed. -/
theorem C8_zip_and_normalization (t h d : List Char)
    (ht : t ≠ []) (hh : h ≠ []) (hd : d ≠ []) :
    report_parse_response [t, h, d] =
      .ok [zipRecord (splitTab h) (splitTab d)] ∧
    (∀ hs vs : List (List Char),
      (zipRecord hs vs).length = min hs.length vs.length) ∧
    (∀ hs vs : List (List Char), ∀ p ∈ zipRecord hs vs,
      ∃ v₀ ∈ vs, p.2 = removeQQ v₀) ∧
    (∀ a b : List Char, '"' ∉ a →
      removeQQ (a ++ '"' :: '"' :: b) = a ++ removeQQ b) := by
  refine ⟨?_, ?_, ?_, removeQQ_strip⟩
  · simp [report_parse_response, report_parse_from, ht, hh, hd]
  · intro hs vs
    simp [zipRecord, List.length_zip]
  · intro hs vs p hp
    obtain ⟨q, hq, rfl⟩ := List.mem_map.mp hp
    exact ⟨q.2, List.of_mem_zip hq |>.2, rfl⟩

/-- C8 witness: extra value fields are dropped and `""` is removed. -/
theorem C8_zip_and_normalization_witness :
    report_parse_response
        ["Caption".toList, "a\tb".toList, "1\"\"2\t3\t4".toList] =
      .ok [zipRecord (splitTab "a\tb".toList) (splitTab "1\"\"2\t3\t4".toList)] ∧
    (zipRecord (splitTab "a\tb".toList) (splitTab "1\"\"2\t3\t4".toList)).length =
      min (splitTab "a\tb".toList).length (splitTab "1\"\"2\t3\t4".toList).length ∧
    removeQQ ("xy".toList ++ '"' :: '"' :: "z".toList) =
      "xy".toList ++ removeQQ "z".toList :=
  ⟨(C8_zip_and_normalization _ _ _ (by decide) (by decide) (by decide)).1,
   (C8_zip_and_normalization "c".toList "h".toList "d".toList
      (by decide) (by decide) (by decide)).2.1 _ _,
   (C8_zip_and_normalization "c".toList "h".toList "d".toList
      (by decide) (by decide) (by decide)).2.2.2 _ _ (by decide)⟩

/-! ## Claim C9 -/

/-- C9: every emitted record's `filename`, `report_type` and
`last_modified` equal, verbatim, the triggering context's values — the
three provenance bindings appended by `post_process` override any
same-named field parsed from the report row itself, for every row. -/
theorem C9_provenance_override (row : Row) (ctx : ChildContext) :
    dictGet (report_post_process row ctx) "filename".toList = some ctx.filename ∧
    dictGet (report_post_process row ctx) "report_type".toList = some ctx.report_type ∧
    dictGet (report_post_process row ctx) "last_modified".toList = some ctx.last_modified := by
  have hrev : (report_post_process row ctx).reverse =
      ("last_modified".toList, ctx.last_modified) ::
        ("report_type".toList, ctx.report_type) ::
          ("filename".toList, ctx.filename) ::
            (row.map fun p => (format_key p.1, p.2)).reverse := by
    simp [report_post_process]
  refine ⟨?_, ?_, ?_⟩ <;> rw [dictGet, hrev]
  · rw [List.find?_cons_of_neg _ (by dsimp only; decide),
      List.find?_cons_of_neg _ (by dsimp only; decide),
      List.find?_cons_of_pos _ (by dsimp only; decide)]
    rfl
  · rw [List.find?_cons_of_neg _ (by dsimp only; decide),
      List.find?_cons_of_pos _ (by dsimp only; decide)]
    rfl
  · rw [List.find?_cons_of_pos _ (by dsimp only; decide)]
    rfl

/-! ## Claim C10 -/

theorem report_parse_from_error :
    ∀ (rest : List (List Char)) (i : Nat), 2 ≤ i →
    (∃ l ∈ rest, l ≠ []) → report_parse_from none i rest = .error ()
  | [], _, _, h => by simp at h
  | c :: rest, i, hi, h => by
    by_cases hc : c = []
    · subst hc
      rw [report_parse_from, if_pos rfl]
      apply report_parse_from_error rest (i + 1) (by omega)
      obtain ⟨l, hl, hne⟩ := h
      rcases List.mem_cons.mp hl with rfl | hl
      · exact absurd rfl hne
      · exact ⟨l, hl, hne⟩
    · rw [report_parse_from, if_neg hc, if_neg (by omega), if_pos (by omega)]

/-- C10: when line index 1 is empty while some line at index 2 or greater
is non-empty, the parser raises (`headers` is referenced before
assignment): empty lines are skipped for output but still consume
indices, so the header variable is never bound. -/
theorem C10_empty_header_line_error (ls : List (List Char)) (j : Nat)
    (l : List Char) (h1 : ls[1]? = some ([] : List Char)) (hj : 2 ≤ j)
    (hl : ls[j]? = some l) (hne : l ≠ []) :
    report_parse_response ls = .error () := by
  obtain ⟨a, rest, rfl⟩ : ∃ a rest, ls = a :: ([] : List Char) :: rest := by
    rcases ls with _ | ⟨a, _ | ⟨b, rest⟩⟩
    · simp at h1
    · simp at h1
    · simp at h1
      exact ⟨a, rest, by rw [h1]⟩
  have hmem : ∃ x ∈ rest, x ≠ [] := by
    obtain ⟨j', rfl⟩ : ∃ j', j = j' + 2 := ⟨j - 2, by omega⟩
    have hrl : rest[j']? = some l := by
      simpa using hl
    exact ⟨l, List.getElem?_mem hrl, hne⟩
  rw [report_parse_response]
  by_cases ha : a = []
  · subst ha
    rw [report_parse_from, if_pos rfl, report_parse_from, if_pos rfl]
    exact report_parse_from_error rest 2 (by omega) hmem
  · rw [report_parse_from, if_neg ha, if_neg (by omega), if_neg (by omega),
      report_parse_from, if_pos rfl]
    exact report_parse_from_error rest 2 (by omega) hmem

/-- C10 witness: title line, empty header line, one data line. -/
theorem C10_empty_header_line_error_witness :
    report_parse_response ["Title".toList, [], "data".toList] = .error () :=
  C10_empty_header_line_error _ 2 "data".toList (by decide) (by omega)
    (by decide) (by decide)

/-! ## Claim C4 -/

theorem runRetry_exhausts (f : Nat → FetchOutcome) (e : Nat → Nat) (interval : Nat) :
    ∀ (n k : Nat), (∀ j, j < n + 1 → f (k + j) = .retriable (e (k + j))) →
    runRetry f interval k (n + 1) =
      ⟨.retriable (e (k + n)), n + 1, List.replicate n interval⟩ := by
  intro n
  induction n with
  | zero =>
    intro k h
    have hk : f k = .retriable (e k) := by simpa using h 0 (by omega)
    rw [runRetry, hk]
    simp
  | succ m ih =>
    intro k h
    have hk : f k = .retriable (e k) := by simpa using h 0 (by omega)
    have ih' := ih (k + 1) (fun j hj => by
      have hstep := h (j + 1) (by omega)
      simpa [show k + (j + 1) = k + 1 + j by omega] using hstep)
    rw [runRetry, hk]
    show (if m + 1 + 1 ≤ 1 then
        ({ result := .retriable (e k), attempts := 1, waits := [] } : RetryTrace)
      else
        let t := runRetry f interval (k + 1) (m + 1 + 1 - 1)
        { result := t.result, attempts := t.attempts + 1,
          waits := interval :: t.waits }) = _
    rw [if_neg (by omega), show m + 1 + 1 - 1 = m + 1 from by omega, ih']
    simp [show k + 1 + m = k + (m + 1) by omega, List.replicate_succ]

/-- C4: the claim says every report-file fetch retries each retriable
error (retriable-API error, read-timeout, connection-error) after a
constant 3-unit wait, up to 8 total attempts, propagating the last error
on exhaustion.  That is what the configured decorator
(`request_decorator` with `backoff.constant(interval=3)` and
`backoff_max_tries = 8`) would do — second conjunct — but
`ReportStream.request_records` performs the report-file fetch with a bare
`requests.get`, never applying the decorator, so the fetch makes exactly
one attempt, waits never, and propagates the first error — first
conjunct. -/
theorem C4_fetch_bypasses_backoff :
    (∀ (f : Nat → FetchOutcome) (e : Nat), f 0 = .retriable e →
      request_records_fetch f = ⟨.retriable e, 1, []⟩) ∧
    (∀ (g : Nat → FetchOutcome) (e : Nat → Nat),
      (∀ j, j < 8 → g j = .retriable (e j)) →
      request_with_backoff g = ⟨.retriable (e 7), 8, List.replicate 7 3⟩) := by
  constructor
  · intro f e hf
    rw [request_records_fetch, hf]
  · intro g e hg
    have h := runRetry_exhausts g e 3 7 0 (fun j hj => by simpa using hg j (by omega))
    simpa [request_with_backoff, backoff_wait_interval, backoff_max_tries] using h

/-- C4 witness: an always-retriable fetch. -/
theorem C4_fetch_bypasses_backoff_witness :
    request_records_fetch (fun _ => .retriable 5) = ⟨.retriable 5, 1, []⟩ ∧
    request_with_backoff (fun _ => .retriable 5) =
      ⟨.retriable 5, 8, List.replicate 7 3⟩ :=
  ⟨C4_fetch_bypasses_backoff.1 _ 5 rfl,
   C4_fetch_bypasses_backoff.2 _ (fun _ => 5) (fun _ _ => rfl)⟩

/-! ## Claim C5 -/

theorem sync_children_no_watermark (ctx : ChildContext) :
    ∀ children : List ChildStream, (sync_children none ctx children).1 = []
  | [] => rfl
  | ch :: rest => by
    rw [sync_children]
    by_cases hsel : ch.selected
    · rw [if_pos hsel]
      show ((match strptimeA ctx.last_modified with
        | none => (([] : List (List Char)), true)
        | some lm =>
          let tail := sync_children none ctx rest
          if ch.name == ctx.report_type &&
              (match (none : Option PyDateTime) with
               | some t => dtLt t lm
               | none => false) then
            (ch.name :: tail.1, tail.2)
          else tail) : List (List Char) × Bool).1 = []
      cases strptimeA ctx.last_modified with
      | none => rfl
      | some lm => simp [sync_children_no_watermark ctx rest]
    · rw [if_neg hsel]
      exact sync_children_no_watermark ctx rest

theorem sync_children_dispatch_eq (srv : Option (List Char)) (ctx : ChildContext)
    (t lm : PyDateTime) (hw : watermark_value srv = .ok (some t))
    (hl : strptimeA ctx.last_modified = some lm) :
    ∀ children : List ChildStream,
    (sync_children srv ctx children).1 =
      (children.filter fun ch =>
        ch.selected && (ch.name == ctx.report_type) && dtLt t lm).map
        (fun ch => ch.name)
  | [] => rfl
  | ch :: rest => by
    rw [sync_children, List.filter_cons]
    by_cases hsel : ch.selected
    · by_cases hcond : (ch.name == ctx.report_type && dtLt t lm) = true
      · simp [hsel, hw, hl, hcond, sync_children_dispatch_eq srv ctx t lm hw hl rest]
      · rw [Bool.not_eq_true] at hcond
        simp [hsel, hw, hl, hcond, sync_children_dispatch_eq srv ctx t lm hw hl rest]
    · rw [Bool.not_eq_true] at hsel
      simp [hsel, sync_children_dispatch_eq srv ctx t lm hw hl rest]

/-- C5: with a persisted watermark that parses to `t` and a descriptor
timestamp that parses to `lm`, the coordinator dispatches exactly the
selected children whose declared name equals the descriptor's
`report_type` when `t < lm` holds strictly; and with no persisted
watermark nothing is ever dispatched, regardless of the descriptor's
timestamp. -/
theorem C5_dispatch_condition (srv : Option (List Char))
    (children : List ChildStream) (ctx : ChildContext) (t lm : PyDateTime)
    (hw : watermark_value srv = .ok (some t))
    (hl : strptimeA ctx.last_modified = some lm) :
    (sync_children srv ctx children).1 =
      (children.filter fun ch =>
        ch.selected && (ch.name == ctx.report_type) && dtLt t lm).map
        (fun ch => ch.name) ∧
    (sync_children none ctx children).1 = [] :=
  ⟨sync_children_dispatch_eq srv ctx t lm hw hl children,
   sync_children_no_watermark ctx children⟩

/-- C5 witness: Scenario E — watermark `2023-01-01 00:00:00 UTC`,
descriptor `last_modified` `2023-01-02 00:00:00 UTC`, matching selected
consumer dispatched; no watermark, no dispatch. -/
theorem C5_dispatch_condition_witness :
    (sync_children (some "2023-01-01 00:00:00 UTC".toList)
        ⟨"f.tsv.gz".toList, "2023-01-02 00:00:00 UTC".toList, "EarningsReport".toList⟩
        [⟨"EarningsReport".toList, true⟩]).1 =
      (([⟨"EarningsReport".toList, true⟩] : List ChildStream).filter fun ch =>
        ch.selected && (ch.name == ("EarningsReport".toList : List Char)) &&
          dtLt ⟨2023, 1, 1, 0, 0, 0⟩ ⟨2023, 1, 2, 0, 0, 0⟩).map
        (fun ch => ch.name) ∧
    (sync_children none
        ⟨"f.tsv.gz".toList, "2023-01-02 00:00:00 UTC".toList, "EarningsReport".toList⟩
        [⟨"EarningsReport".toList, true⟩]).1 = [] :=
  C5_dispatch_condition (some "2023-01-01 00:00:00 UTC".toList)
    [⟨"EarningsReport".toList, true⟩]
    ⟨"f.tsv.gz".toList, "2023-01-02 00:00:00 UTC".toList, "EarningsReport".toList⟩
    ⟨2023, 1, 1, 0, 0, 0⟩ ⟨2023, 1, 2, 0, 0, 0⟩ rfl rfl

/-! ## Claim C6 -/

/-- C6 (counterexample): the claim asserts that Scenario A's descriptor
carries `last_modified = "2023-01-02 03:04:05 UTCUTC"`.  It does not:
`strptime` with a `%Z` field returns a *naive* datetime, whose
`strftime("%Z")` renders the empty string, so the normalized value is the
format's literal space followed by the single appended `"UTC"` marker. -/
theorem C6_scenarioA_counterexample :
    list_parse_response scenarioA_html =
      .ok [{ filename := "foo-20-earnings-report-20230101.tsv.gz".toList,
             last_modified := "2023-01-02 03:04:05 UTC".toList,
             download := "x.g".toList }] ∧
    ("2023-01-02 03:04:05 UTC".toList : List Char) ≠
      "2023-01-02 03:04:05 UTCUTC".toList := by
  exact ⟨rfl, by decide⟩

/-- C6 (amended): for the Scenario A listing row, the scraper produces a
FileDescriptor whose `report_type` is `"EarningsReport"` and whose
`last_modified` is `"2023-01-02 03:04:05 UTC"` — the canonical
reformatting (whose `%Z` renders empty for the naive parsed datetime,
leaving the format's trailing space) followed by the appended literal
`"UTC"` marker. -/
theorem C6_scenarioA_descriptor :
    list_parse_response scenarioA_html =
      .ok [{ filename := "foo-20-earnings-report-20230101.tsv.gz".toList,
             last_modified := "2023-01-02 03:04:05 UTC".toList,
             download := "x.g".toList }] ∧
    list_post_process
        { filename := "foo-20-earnings-report-20230101.tsv.gz".toList,
          last_modified := "2023-01-02 03:04:05 UTC".toList,
          download := "x.g".toList } =
      .ok { filename := "foo-20-earnings-report-20230101.tsv.gz".toList,
            last_modified := "2023-01-02 03:04:05 UTC".toList,
            download := "x.g".toList,
            report_type := "EarningsReport".toList } := by
  exact ⟨rfl, rfl⟩

/-! ## Claim C7 -/

/-- C7: the claim says a filename that fails the report-type pattern is
logged and the row proceeds with an undefined report type, no exception
propagating.  In the code the `except AttributeError` handler only logs:
the local `report_type` is left unassigned, and the subsequent read of it
raises `UnboundLocalError`, which propagates out of `extract_report_type`
and hence out of `post_process` for that row. -/
theorem C7_extraction_raises :
    (∀ filename : List Char, reportTypeMatch filename = none →
      extract_report_type filename = .error ()) ∧
    extract_report_type "badname.gz".toList = .error () ∧
    list_post_process
        { filename := "badname.gz".toList,
          last_modified := "2023-01-02 03:04:05 UTC".toList,
          download := "x.g".toList } = .error () := by
  refine ⟨?_, rfl, rfl⟩
  intro f hf
  simp [extract_report_type, hf]

/-- C7 witness: a filename that misses the pattern. -/
theorem C7_extraction_raises_witness :
    reportTypeMatch "report.tsv".toList = none ∧
    extract_report_type "report.tsv".toList = .error () :=
  ⟨rfl, C7_extraction_raises.1 _ rfl⟩

end TapAmazonAssociates
